import Mathlib

/-!
Verification of the message-decoding core of `email_client.py`.

The development shallowly embeds the functions of the class `EmailReader`
that the specification describes:

* `_decode_header`        (spec: `HeaderDecoder.decode`)
* `_get_email_body`       (spec: `extractBody`)
* `_get_attachments`      (spec: `extractAttachments`)
* `_get_web_link`         (spec: `webLink`)
* `_get_unsubscribe_links`(spec: `extractUnsubscribeLinks`)
* the search-criteria block of `EmailReader.read` (spec: `buildSearchQuery`)

Host-library behaviour that the source relies on is modelled explicitly:
Python string truthiness, `str.strip(chars)`, substring `in`, `' '.join`,
`bytes.decode('utf-8', errors=...)`, `urllib.parse.quote`, `int(...)`,
`email.message.Message.walk()` (depth-first pre-order), and the behaviour of
the concrete `re` patterns the source uses, via a small backtracking matcher
over transcriptions of those patterns.

The boundary for `email.header.decode_header` is its documented return value:
a header value enters the model already split into a list of atoms, each a
literal string or an encoded chunk of bytes with a declared charset.
-/

namespace EmailClient

/-! ## Python string primitives -/

/-- Python `needle in hay` on strings: substring containment. -/
def pyIn (needle hay : String) : Bool :=
  (hay.toList.tails).any (fun t => needle.toList.isPrefixOf t)

/-- Python `str(x)` for an `Optional[str]`: `str(None)` is the text `"None"`. -/
def pyStrOpt : Option String → String
  | none => "None"
  | some s => s

/-- Python `s.strip(chars)`: remove characters of the set from both ends. -/
def pyStrip (s : String) (cs : List Char) : String :=
  String.mk (((s.toList.dropWhile (· ∈ cs)).reverse.dropWhile (· ∈ cs)).reverse)

/-- Python `' '.join(parts)`. -/
def pyJoinSp : List String → String
  | [] => ""
  | [s] => s
  | s :: rest => s ++ " " ++ pyJoinSp rest

/-- Python `s.lower()` (ASCII case folding, which is all the source feeds it). -/
def pyToLower (s : String) : String :=
  String.mk (s.toList.map Char.toLower)

/-- Python `s.strip()` with no argument: trim whitespace from both ends. -/
def pyTrimWs (s : String) : String :=
  String.mk (((s.toList.dropWhile Char.isWhitespace).reverse.dropWhile
    Char.isWhitespace).reverse)

/-- Python `s.startswith(t)`. -/
def pyStartsWith (s t : String) : Bool :=
  t.toList.isPrefixOf s.toList

/-- Python `s.replace(pat, rep)` for a non-empty `pat`: replace every
occurrence, scanning left to right (helper with structural fuel). -/
def pyReplaceAux (pat rep : List Char) : Nat → List Char → List Char
  | 0, l => l
  | _ + 1, [] => []
  | fuel + 1, c :: l =>
    if pat.isPrefixOf (c :: l) then rep ++ pyReplaceAux pat rep fuel ((c :: l).drop pat.length)
    else c :: pyReplaceAux pat rep fuel l

/-- Python `s.replace(pat, rep)` (for the non-empty patterns the source uses). -/
def pyReplace (s pat rep : String) : String :=
  String.mk (pyReplaceAux pat.toList rep.toList (s.toList.length + 1) s.toList)

/-- Python `int(s)`: optional surrounding whitespace, optional sign, decimal
digits.  (Python additionally accepts digit-group underscores; the call sites
only ever pass `\d+` regex matches, which have neither.) -/
def pyIntParse (s : String) : Option Int :=
  let t := (pyTrimWs s).toList
  let core : Int × List Char :=
    match t with
    | '-' :: rest => (-1, rest)
    | '+' :: rest => (1, rest)
    | _ => (1, t)
  if core.2 ≠ [] ∧ core.2.all (·.isDigit) then
    some (core.1 * (core.2.foldl (fun n c => 10 * n + (c.toNat - 48)) 0 : Nat))
  else none

/-- Lowercase hexadecimal digit. -/
def hexDigitLC (n : Nat) : Char :=
  if n < 10 then Char.ofNat (48 + n) else Char.ofNat (87 + n)

/-- Uppercase hexadecimal digit. -/
def hexDigitUC (n : Nat) : Char :=
  if n < 10 then Char.ofNat (48 + n) else Char.ofNat (55 + n)

/-- Hex digits of `n`, most significant first (helper with structural fuel). -/
def natToHexAux : Nat → Nat → List Char
  | 0, _ => []
  | _ + 1, 0 => []
  | fuel + 1, n => natToHexAux fuel (n / 16) ++ [hexDigitLC (n % 16)]

/-- Python `format(n, 'x')` for a natural number. -/
def natToHex (n : Nat) : String :=
  if n = 0 then "0" else String.mk (natToHexAux (n + 1) n)

/-- Python `format(i, 'x')` on an `int`: sign followed by lowercase hex. -/
def intToHex (i : Int) : String :=
  if i < 0 then "-" ++ natToHex i.natAbs else natToHex i.toNat

/-! ## Byte-level text codecs

`bytes.decode('utf-8', errors=...)` with the two error handlers the
development contrasts: `'ignore'` (drop the offending bytes) and
`'replace'` (emit U+FFFD for them).  Error spans follow CPython's
maximal-subpart handling: an invalid lead byte consumes one byte, a valid
lead with an invalid continuation consumes the valid prefix only. -/

inductive ErrMode where
  | ignoreErr
  | replaceErr
deriving DecidableEq

/-- What one decoding-error event contributes to the output. -/
def errOut : ErrMode → List Char
  | .ignoreErr => []
  | .replaceErr => [Char.ofNat 0xFFFD]

/-- Continuation byte test. -/
def isCont (b : Nat) : Bool := 0x80 ≤ b ∧ b ≤ 0xBF

/-- Allowed range of the first continuation byte after a given lead byte. -/
def cont1Ok (lead b : Nat) : Bool :=
  if lead = 0xE0 then 0xA0 ≤ b ∧ b ≤ 0xBF
  else if lead = 0xED then 0x80 ≤ b ∧ b ≤ 0x9F
  else if lead = 0xF0 then 0x90 ≤ b ∧ b ≤ 0xBF
  else if lead = 0xF4 then 0x80 ≤ b ∧ b ≤ 0x8F
  else isCont b

/-- UTF-8 decoding of a byte list under the given error handler.  The first
argument is structural fuel; each step consumes at least one byte, so
`length + 1` fuel always suffices. -/
def utf8DecodeAux (m : ErrMode) : Nat → List Nat → List Char
  | 0, _ => []
  | _ + 1, [] => []
  | fuel + 1, b :: rest =>
    if b < 0x80 then Char.ofNat b :: utf8DecodeAux m fuel rest
    else if 0xC2 ≤ b ∧ b ≤ 0xDF then
      match rest with
      | b2 :: rest2 =>
        if isCont b2 then
          Char.ofNat ((b - 0xC0) * 0x40 + (b2 - 0x80)) :: utf8DecodeAux m fuel rest2
        else errOut m ++ utf8DecodeAux m fuel rest
      | [] => errOut m
    else if 0xE0 ≤ b ∧ b ≤ 0xEF then
      match rest with
      | b2 :: rest2 =>
        if cont1Ok b b2 then
          match rest2 with
          | b3 :: rest3 =>
            if isCont b3 then
              Char.ofNat ((b - 0xE0) * 0x1000 + (b2 - 0x80) * 0x40 + (b3 - 0x80)) ::
                utf8DecodeAux m fuel rest3
            else errOut m ++ utf8DecodeAux m fuel rest2
          | [] => errOut m
        else errOut m ++ utf8DecodeAux m fuel rest
      | [] => errOut m
    else if 0xF0 ≤ b ∧ b ≤ 0xF4 then
      match rest with
      | b2 :: rest2 =>
        if cont1Ok b b2 then
          match rest2 with
          | b3 :: rest3 =>
            if isCont b3 then
              match rest3 with
              | b4 :: rest4 =>
                if isCont b4 then
                  Char.ofNat ((b - 0xF0) * 0x40000 + (b2 - 0x80) * 0x1000 +
                      (b3 - 0x80) * 0x40 + (b4 - 0x80)) :: utf8DecodeAux m fuel rest4
                else errOut m ++ utf8DecodeAux m fuel rest3
              | [] => errOut m
            else errOut m ++ utf8DecodeAux m fuel rest2
          | [] => errOut m
        else errOut m ++ utf8DecodeAux m fuel rest
      | [] => errOut m
    else errOut m ++ utf8DecodeAux m fuel rest

/-- `bs.decode('utf-8', errors=m)` as a string. -/
def utf8Decode (m : ErrMode) (bs : List Nat) : String :=
  String.mk (utf8DecodeAux m (bs.length + 1) bs)

/-- UTF-8 bytes of one character. -/
def utf8EncodeChar (c : Char) : List Nat :=
  let n := c.toNat
  if n < 0x80 then [n]
  else if n < 0x800 then [0xC0 + n / 0x40, 0x80 + n % 0x40]
  else if n < 0x10000 then
    [0xE0 + n / 0x1000, 0x80 + (n / 0x40) % 0x40, 0x80 + n % 0x40]
  else
    [0xF0 + n / 0x40000, 0x80 + (n / 0x1000) % 0x40, 0x80 + (n / 0x40) % 0x40,
      0x80 + n % 0x40]

/-- UTF-8 bytes of a string. -/
def utf8Encode (s : String) : List Nat :=
  s.toList.flatMap utf8EncodeChar

/-- Bytes `urllib.parse.quote` never escapes: ALPHA / DIGIT / `_.-~`. -/
def quoteAlwaysSafe (b : Nat) : Bool :=
  (65 ≤ b ∧ b ≤ 90) ∨ (97 ≤ b ∧ b ≤ 122) ∨ (48 ≤ b ∧ b ≤ 57) ∨
    b = 95 ∨ b = 46 ∨ b = 45 ∨ b = 126

/-- `urllib.parse.quote(s, safe)`: percent-encode the UTF-8 bytes of `s`,
keeping the always-safe bytes and the caller's `safe` characters. -/
def urlQuote (safe : List Char) (s : String) : String :=
  String.mk ((utf8Encode s).flatMap (fun b =>
    if quoteAlwaysSafe b ∨ (b < 0x80 ∧ Char.ofNat b ∈ safe) then [Char.ofNat b]
    else ['%', hexDigitUC (b / 16), hexDigitUC (b % 16)]))

/-! ## Header decoding (`EmailReader._decode_header`)

`email.header.decode_header` splits a header value into atoms; the source
then decodes each bytes atom with its declared charset (defaulting to
`'utf-8'`) under `errors='ignore'` and joins all atoms with single spaces.
The declared charset is carried as the raw name string `decode_header`
returns; `bytes.decode` looks the name up in the codec registry and raises
`LookupError` for an unknown name — `errors='ignore'` does not mask that —
so decoding a header value is fallible and `none` models the raised error. -/

inductive PyCharset where
  | utf8
  | latin1
deriving DecidableEq

/-- `bytes.decode(codec, errors=m)` for the modelled codecs; Latin-1 maps
each byte to the code point of the same value and never fails. -/
def pyBytesDecode (cs : PyCharset) (m : ErrMode) (bs : List Nat) : String :=
  match cs with
  | .utf8 => utf8Decode m bs
  | .latin1 => String.mk (bs.map (fun b => Char.ofNat (b % 256)))

/-- `encodings.normalize_encoding`-style normalisation used by the codec
registry: lower-case and fold separators to `_`. -/
def normalizeCodecName (s : String) : String :=
  pyToLower (String.mk (s.toList.map (fun c => if c = '-' ∨ c = ' ' then '_' else c)))

/-- The codec registry (`codecs.lookup`) restricted to the codec families
this development exercises: UTF-8 and Latin-1 with their registered aliases.
Any other name takes the unknown-codec path, on which `bytes.decode` raises
`LookupError`; the only codec-name facts the theorems use are that `utf-8`
resolves and that a fantasy name such as `x-funky` does not. -/
def lookupCodec (name : String) : Option PyCharset :=
  let n := normalizeCodecName name
  if n = "utf_8" ∨ n = "utf8" ∨ n = "utf" ∨ n = "u8" ∨ n = "cp65001" then
    some .utf8
  else if n = "latin_1" ∨ n = "latin1" ∨ n = "latin" ∨ n = "l1" ∨ n = "8859" ∨
      n = "iso8859_1" ∨ n = "iso_8859_1" ∨ n = "cp819" then
    some .latin1
  else none

/-- One atom of `email.header.decode_header`'s return value: either a literal
string part or an encoded-word's decoded bytes with the declared charset's
raw name (`none` when `decode_header` reports no charset). -/
inductive HeaderAtom where
  | text (s : String)
  | enc (bytes : List Nat) (charset : Option String)
deriving DecidableEq

/-- Decoding of one atom, `email_client.py` lines 469-473:
`part.decode(encoding or 'utf-8', errors='ignore')`.  A falsy declared
charset (`None` or `""`) falls back to `'utf-8'`; any other name goes
through the codec registry, and an unknown name raises `LookupError`
(`none`). -/
def decodeAtomE : HeaderAtom → Option String
  | .text s => some s
  | .enc bs cs =>
    match cs with
    | none => some (pyBytesDecode .utf8 .ignoreErr bs)
    | some name =>
      if name = "" then some (pyBytesDecode .utf8 .ignoreErr bs)
      else
        match lookupCodec name with
        | some codec => some (pyBytesDecode codec .ignoreErr bs)
        | none => none

/-- Run a fallible function over a list, propagating the first failure
(a raised exception aborts a Python loop). -/
def optMapList {α β : Type} (f : α → Option β) : List α → Option (List β)
  | [] => some []
  | x :: t =>
    match f x, optMapList f t with
    | some y, some ys => some (y :: ys)
    | _, _ => none

/-- The result-building loop of lines 466-474 over the atoms: the decoded
parts in order, or `none` when some atom's decode raises. -/
def decodeAtoms (h : List HeaderAtom) : Option (List String) :=
  optMapList decodeAtomE h

/-- `EmailReader._decode_header` (lines 461-475).  An absent or empty header
value is the empty atom list and yields `""`; otherwise the decoded atoms
are joined by `' '.join`, and a `LookupError` raised for an unknown declared
charset propagates (`none`). -/
def decode_header (h : List HeaderAtom) : Option String :=
  if h = [] then some "" else (decodeAtoms h).map pyJoinSp

/-! ## MIME tree model

A parsed `email.message.Message`: either a single (non-multipart) part or a
multipart container with children.  Every node carries its raw
`Content-Disposition` header (if any) and its filename (if any, as the
`decode_header` atom decomposition of the raw filename; a present-but-empty
filename is the empty atom list).  `walk()` is depth-first pre-order and
yields containers as well as leaves. -/

mutual
inductive MimePart where
  | leaf (ctype : String) (disp : Option String) (fname : Option (List HeaderAtom))
      (payload : List Nat)
  | multi (subtype : String) (disp : Option String) (fname : Option (List HeaderAtom))
      (children : MimeForest)
inductive MimeForest where
  | fnil
  | fcons (head : MimePart) (tail : MimeForest)
end

/-- `part.get_content_type()`: the (already lower-cased) content type. -/
def ctypeOf : MimePart → String
  | .leaf ct _ _ _ => ct
  | .multi st _ _ _ => "multipart/" ++ st

/-- `part.get("Content-Disposition")`: the raw header value, if present. -/
def dispOf : MimePart → Option String
  | .leaf _ d _ _ => d
  | .multi _ d _ _ => d

/-- `part.get_filename()`, as its `decode_header` atom decomposition. -/
def fnameOf : MimePart → Option (List HeaderAtom)
  | .leaf _ _ f _ => f
  | .multi _ _ f _ => f

/-- `part.get_payload(decode=True)` for a leaf part (transfer-decoding already
applied); never consulted for containers. -/
def payloadOf : MimePart → List Nat
  | .leaf _ _ _ pl => pl
  | .multi _ _ _ _ => []

mutual
/-- `msg.walk()`: the node itself followed by the pre-order walk of its
children. -/
def walkPart : MimePart → List MimePart
  | .leaf ct d f pl => [.leaf ct d f pl]
  | .multi st d f cs => .multi st d f cs :: walkForest cs
def walkForest : MimeForest → List MimePart
  | .fnil => []
  | .fcons p ps => walkPart p ++ walkForest ps
end

/-- `part.get_content_disposition()`: main value of the raw header, stripped
and lower-cased; `None` when the header is absent. -/
def get_content_disposition (p : MimePart) : Option String :=
  (dispOf p).map (fun v =>
    pyToLower (pyTrimWs (String.mk (v.toList.takeWhile (· ≠ ';')))))

/-! ## Body extraction (`EmailReader._get_email_body`, lines 477-502) -/

/-- The per-part update of the `plain_body`/`html_body` accumulators
(lines 483-491): parts whose raw `Content-Disposition` (with `str(None)` for
an absent header) contains the substring `"attachment"` are skipped;
otherwise a `text/plain` part overwrites the plain accumulator and a
`text/html` part overwrites the html accumulator. -/
def bodyStep (acc : String × String) (p : MimePart) : String × String :=
  if ¬ pyIn "attachment" (pyStrOpt (dispOf p)) then
    if ctypeOf p = "text/plain" then (utf8Decode .ignoreErr (payloadOf p), acc.2)
    else if ctypeOf p = "text/html" then (acc.1, utf8Decode .ignoreErr (payloadOf p))
    else acc
  else acc

/-- The loop of lines 483-491 over a walk sequence. -/
def bodyScan (ps : List MimePart) : String × String :=
  ps.foldl bodyStep ("", "")

/-- The `(plain_body, html_body)` pair the function has computed when it
reaches line 499: the walk loop for a multipart message, the single-part
assignment of lines 492-497 otherwise. -/
def capturedBodies (root : MimePart) : String × String :=
  match root with
  | .multi .. => bodyScan (walkPart root)
  | .leaf ct _ _ pl =>
    let body := utf8Decode .ignoreErr pl
    if ct = "text/html" then ("", body) else (body, "")

/-- Lines 499-502: prefer the html body when requested and non-empty, else
the plain body when non-empty, else the html body. -/
def resolveBody (preferHtml : Bool) (plain html : String) : String :=
  if preferHtml = true ∧ html ≠ "" then html
  else if plain ≠ "" then plain else html

/-- `EmailReader._get_email_body`. -/
def get_email_body (root : MimePart) (preferHtml : Bool) : String :=
  resolveBody preferHtml (capturedBodies root).1 (capturedBodies root).2

/-! ## Attachment listing (`EmailReader._get_attachments`, lines 504-514) -/

/-- Python truthiness of a filename value: `None` and `""` are falsy; a
non-empty raw string decomposes into a non-empty atom list. -/
def fnameTruthy (f : Option (List HeaderAtom)) : Bool :=
  match f with
  | none => false
  | some atoms => atoms ≠ []

/-- The loop of lines 508-512 over a walk sequence: for parts whose parsed
content disposition is `attachment` and whose filename is truthy, append the
decoded filename; a `LookupError` raised inside `_decode_header` aborts the
loop and propagates (`none`). -/
def attachLoop : List String → List MimePart → Option (List String)
  | acc, [] => some acc
  | acc, p :: ps =>
    if get_content_disposition p = some "attachment" then
      match fnameOf p with
      | some fn =>
        if fn ≠ [] then
          match decode_header fn with
          | some s => attachLoop (acc ++ [s]) ps
          | none => none
        else attachLoop acc ps
      | none => attachLoop acc ps
    else attachLoop acc ps

/-- `EmailReader._get_attachments`. -/
def get_attachments (root : MimePart) : Option (List String) :=
  attachLoop [] (walkPart root)

/-! ## Web links (`EmailReader._get_web_link`, lines 516-546) -/

/-- `message_id.replace('<', '').replace('>', '')`. -/
def stripAngles (s : String) : String :=
  String.mk (s.toList.filter (fun c => c ≠ '<' ∧ c ≠ '>'))

/-- Lines 518-524: the gmail direct link from a numeric provider message id;
`None` when the rule does not apply (wrong provider, falsy id, or `int()`
failure, which the source catches and falls through). -/
def gmailDirect (provider : String) (gmailMsgId : Option String) : Option String :=
  if provider = "gmail" then
    match gmailMsgId with
    | some g =>
      if g ≠ "" then
        (pyIntParse g).map (fun n => "https://mail.google.com/mail/u/0/#inbox/" ++ intToHex n)
      else none
    | none => none
  else none

/-- `EmailReader._get_web_link`. -/
def get_web_link (provider : String) (messageId : String) (gmailMsgId : Option String) :
    String :=
  match gmailDirect provider gmailMsgId with
  | some u => u
  | none =>
    if messageId = "" then ""
    else
      let cleanId := stripAngles messageId
      if provider = "gmail" then
        "https://mail.google.com/mail/u/0/#search/rfc822msgid%3A" ++ urlQuote [] cleanId
      else if provider = "zoho" then
        "https://mail.zoho.com/zm/#search/msgid/" ++ cleanId
      else if provider = "fastmail" then
        "https://app.fastmail.com/mail/search:msgid:" ++ cleanId
      else
        "https://mail." ++ provider ++ ".com/search?q=" ++ cleanId

/-! ## A matcher for the source's `re` patterns

The source applies a fixed set of regular expressions built from literals,
greedy character-class repetitions (`+`, `*`, `?`), and capture groups.
They are transcribed into `RexItem` sequences and executed by a
backtracking matcher with Python semantics: leftmost match, greedy
repetition (longest first), optional case-insensitivity (`re.IGNORECASE`
folds both sides).  The matcher's `Nat` argument is structural fuel; its
recursion depth is bounded by the pattern length, so `pattern length + 1`
always suffices. -/

inductive RexItem where
  | lit (s : String)
  | one (p : Char → Bool)
  | opt (p : Char → Bool)
  | star (p : Char → Bool)
  | plus (p : Char → Bool)
  | openG
  | closeG

/-- Character-class test; under `re.IGNORECASE` the input character is
case-folded first (the transcribed classes are written in folded form). -/
def clsMatch (ci : Bool) (p : Char → Bool) (c : Char) : Bool :=
  if ci then p c.toLower else p c

/-- Match a literal, consuming it from the input. -/
def litMatch (ci : Bool) : List Char → List Char → Option (List Char)
  | [], rest => some rest
  | _ :: _, [] => none
  | a :: as, c :: rest =>
    if (if ci then a.toLower = c.toLower else a = c) then litMatch ci as rest else none

/-- Length of the maximal prefix of the input satisfying a class. -/
def runLen (ci : Bool) (p : Char → Bool) (s : List Char) : Nat :=
  (s.takeWhile (clsMatch ci p)).length

/-- The backtracking matcher.  Arguments: fuel, remaining pattern, remaining
input, the input position saved at the last un-closed `openG`, and the
completed captures in order.  Returns the input left over after the match
and the captures.  Greedy repetition is realised by trying the maximal run
first (`j = 0` drops the whole run) and shrinking on failure. -/
def mgo (ci : Bool) : Nat → List RexItem → List Char → Option (List Char) →
    List String → Option (List Char × List String)
  | 0, _, _, _, _ => none
  | _ + 1, [], rest, _, caps => some (rest, caps)
  | fuel + 1, .lit s :: items, rest, pend, caps =>
    match litMatch ci s.toList rest with
    | some rest2 => mgo ci fuel items rest2 pend caps
    | none => none
  | fuel + 1, .one p :: items, rest, pend, caps =>
    match rest with
    | [] => none
    | c :: rest2 => if clsMatch ci p c then mgo ci fuel items rest2 pend caps else none
  | fuel + 1, .opt p :: items, rest, pend, caps =>
    (match rest with
     | c :: rest2 =>
       if clsMatch ci p c then
         match mgo ci fuel items rest2 pend caps with
         | some r => some r
         | none => mgo ci fuel items rest pend caps
       else mgo ci fuel items rest pend caps
     | [] => mgo ci fuel items rest pend caps)
  | fuel + 1, .star p :: items, rest, pend, caps =>
    let m := runLen ci p rest
    (List.range (m + 1)).findSome? (fun j => mgo ci fuel items (rest.drop (m - j)) pend caps)
  | fuel + 1, .plus p :: items, rest, pend, caps =>
    let m := runLen ci p rest
    if m = 0 then none
    else (List.range m).findSome? (fun j => mgo ci fuel items (rest.drop (m - j)) pend caps)
  | fuel + 1, .openG :: items, rest, _, caps => mgo ci fuel items rest (some rest) caps
  | fuel + 1, .closeG :: items, rest, pend, caps =>
    match pend with
    | some saved =>
      mgo ci fuel items rest none
        (caps ++ [String.mk (saved.take (saved.length - rest.length))])
    | none => none

/-- Anchored match attempt at the head of the input. -/
def matchAt (ci : Bool) (pat : List RexItem) (s : List Char) :
    Option (List Char × List String) :=
  mgo ci (pat.length + 1) pat s none []

/-- `re.finditer` scan: try each start position left to right, resume after
each (non-overlapping) match.  Fuel is structural; `input length + 1`
suffices since every step consumes at least one character. -/
def findIterGo (ci : Bool) (pat : List RexItem) : Nat → List Char →
    List (String × List String)
  | 0, _ => []
  | fuel + 1, s =>
    match matchAt ci pat s with
    | some (rest, caps) =>
      let consumed := s.length - rest.length
      let mt := String.mk (s.take consumed)
      if consumed = 0 then
        match s with
        | [] => [(mt, caps)]
        | _ :: tl => (mt, caps) :: findIterGo ci pat fuel tl
      else (mt, caps) :: findIterGo ci pat fuel rest
    | none =>
      match s with
      | [] => []
      | _ :: tl => findIterGo ci pat fuel tl

/-- All matches of a pattern in a string, with their captures. -/
def pyFindIter (ci : Bool) (pat : List RexItem) (s : String) :
    List (String × List String) :=
  findIterGo ci pat (s.toList.length + 1) s.toList

/-- `re.findall` for a pattern without groups: the matched texts. -/
def findallG0 (ci : Bool) (pat : List RexItem) (s : String) : List String :=
  (pyFindIter ci pat s).map (·.1)

/-- `re.findall` for a pattern with one group: the group texts. -/
def findallG1 (ci : Bool) (pat : List RexItem) (s : String) : List String :=
  (pyFindIter ci pat s).map (fun r => r.2.headD "")

/-- `re.finditer` for a pattern with two groups, as `(group 1, group 2)`. -/
def finditer2 (ci : Bool) (pat : List RexItem) (s : String) :
    List (String × String) :=
  (pyFindIter ci pat s).map (fun r => (r.2.headD "", r.2.getD 1 ""))

/-- `re.search(alternation, s)` as a boolean: some alternative matches at
some position. -/
def searchAny (ci : Bool) (pats : List (List RexItem)) (s : String) : Bool :=
  s.toList.tails.any (fun t => pats.any (fun p => (matchAt ci p t).isSome))

/-! ## The source's patterns (`EmailReader._get_unsubscribe_links`) -/

/-- The class `["\']`. -/
def qCls (c : Char) : Bool := c = '"' ∨ c = '\''

/-- The class `[^\s<>"\']`. -/
def urlCls (c : Char) : Bool :=
  ¬ (c.isWhitespace ∨ c = '<' ∨ c = '>' ∨ c = '"' ∨ c = '\'')

/-- Line 569: `<(https?://[^>]+)>` (no IGNORECASE). -/
def headerHttpPat : List RexItem :=
  [.lit "<", .openG, .lit "http", .opt (· = 's'), .lit "://", .plus (· ≠ '>'), .closeG,
    .lit ">"]

/-- Line 573: `<(mailto:[^>]+)>` (no IGNORECASE). -/
def headerMailtoPat : List RexItem :=
  [.lit "<", .openG, .lit "mailto:", .plus (· ≠ '>'), .closeG, .lit ">"]

/-- Line 602: `<a[^>]+href=["\']([^"\']+)["\'][^>]*>([^<]*)</a>`. -/
def anchorPat : List RexItem :=
  [.lit "<a", .plus (· ≠ '>'), .lit "href=", .one qCls, .openG,
    .plus (fun c => ¬ qCls c), .closeG, .one qCls, .star (· ≠ '>'), .lit ">", .openG,
    .star (· ≠ '<'), .closeG, .lit "</a>"]

/-- Line 607: the anchor-text keyword alternation
`unsubscribe|opt.?out|preferences|manage|settings|stop.?receiv` (`.` is any
character except a newline). -/
def kwAlternatives : List (List RexItem) :=
  [[.lit "unsubscribe"],
   [.lit "opt", .opt (· ≠ '\n'), .lit "out"],
   [.lit "preferences"],
   [.lit "manage"],
   [.lit "settings"],
   [.lit "stop", .opt (· ≠ '\n'), .lit "receiv"]]

/-- `re.search` of the keyword alternation, IGNORECASE. -/
def kwSearch (s : String) : Bool := searchAny true kwAlternatives s

/-- Line 613: `unsubscribe[^<]*<a[^>]+href=["\']([^"\']+)["\']`. -/
def beforeLinkPat : List RexItem :=
  [.lit "unsubscribe", .star (· ≠ '<'), .lit "<a", .plus (· ≠ '>'), .lit "href=",
    .one qCls, .openG, .plus (fun c => ¬ qCls c), .closeG, .one qCls]

/-- Line 619: `<a[^>]+href=["\']([^"\']+)["\'][^>]*>[^<]*unsubscribe`. -/
def inLinkPat : List RexItem :=
  [.lit "<a", .plus (· ≠ '>'), .lit "href=", .one qCls, .openG,
    .plus (fun c => ¬ qCls c), .closeG, .one qCls, .star (· ≠ '>'), .lit ">",
    .star (· ≠ '<'), .lit "unsubscribe"]

/-- `https?://`. -/
def urlHead : List RexItem := [.lit "http", .opt (· = 's'), .lit "://"]

/-- `https?://[^\s<>"\']+MID[^\s<>"\']*` for a literal `MID`. -/
def urlPat (mid : String) : List RexItem :=
  urlHead ++ [.plus urlCls, .lit mid, .star urlCls]

/-- Line 590: `https?://[^\s<>"\']+/manage[^\s<>"\']*subscription[^\s<>"\']*`. -/
def urlPatManageSub : List RexItem :=
  urlHead ++ [.plus urlCls, .lit "/manage", .star urlCls, .lit "subscription",
    .star urlCls]

/-- Lines 594-596: `https?://[^\s<>"\']*beehiiv\.com/[^\s<>"\']*KW[^\s<>"\']*`. -/
def beehiivPat (kw : String) : List RexItem :=
  urlHead ++ [.star urlCls, .lit "beehiiv.com/", .star urlCls, .lit kw, .star urlCls]

/-- Lines 584-597: the `unsubscribe_patterns` list, in source order. -/
def urlPatterns : List (List RexItem) :=
  [urlPat "unsubscribe", urlPat "/unsub", urlPat "/opt-out", urlPat "/preferences",
   urlPat "/email-preferences", urlPatManageSub, urlPat "/email/preferences",
   urlPat "/settings/notifications", beehiivPat "unsubscribe",
   beehiivPat "preferences", beehiivPat "manage"]

/-! ## Unsubscribe-link extraction (`EmailReader._get_unsubscribe_links`) -/

/-- The argument of `strip` on line 628, read as the character set Python
reads it as: the characters of the literal `'.,;:)]}\'"&amp;'`. -/
def stripPunctSet : List Char :=
  ['.', ',', ';', ':', ')', ']', '}', '\'', '"', '&', 'a', 'm', 'p', ';']

/-- Lines 628-630: strip the set above from both ends, then decode `&amp;`. -/
def cleanUrl (mt : String) : String :=
  pyReplace (pyStrip mt stripPunctSet) "&amp;" "&"

/-- The message data `_get_unsubscribe_links` consumes: the raw
`List-Unsubscribe` header value (`""` when absent, per `msg.get`'s default)
and the MIME tree. -/
structure EmailMsg where
  listUnsub : String
  root : MimePart

/-- Line 569's matches: the `http(s)` angle-bracket tokens of the header. -/
def headerHttpTokens (h : String) : List String := findallG1 false headerHttpPat h

/-- Line 573's matches: the `mailto:` angle-bracket tokens of the header. -/
def headerMailtoTokens (h : String) : List String := findallG1 false headerMailtoPat h

/-- Lines 603-609: the anchor-text rule. -/
def anchorRule (acc : List String) (body : String) : List String :=
  (finditer2 true anchorPat body).foldl (fun a ut =>
    if (kwSearch ut.2 ∧ pyStartsWith ut.1 "http") ∧ ut.1 ∉ a then a ++ [ut.1] else a) acc

/-- Lines 613-616: the word-"unsubscribe"-before-anchor rule. -/
def beforeRule (acc : List String) (body : String) : List String :=
  (findallG1 true beforeLinkPat body).foldl (fun a u =>
    if pyStartsWith u "http" ∧ u ∉ a then a ++ [u] else a) acc

/-- Lines 619-622: the "unsubscribe"-inside-anchor-text rule. -/
def inLinkRule (acc : List String) (body : String) : List String :=
  (findallG1 true inLinkPat body).foldl (fun a u =>
    if pyStartsWith u "http" ∧ u ∉ a then a ++ [u] else a) acc

/-- Lines 624-632: the URL-pattern rule over all patterns. -/
def urlPatRule (acc : List String) (body : String) : List String :=
  urlPatterns.foldl (fun a pat =>
    (findallG0 true pat body).foldl (fun a2 mt =>
      let c := cleanUrl mt
      if c ∉ a2 ∧ pyStartsWith c "http" then a2 ++ [c] else a2) a) acc

/-- One iteration of the `for prefer_html in [True, False]` loop
(lines 580-632) for the already-extracted body. -/
def bodyPass (acc : List String) (preferHtml : Bool) (body : String) : List String :=
  if body ≠ "" then
    urlPatRule
      (if preferHtml then inLinkRule (beforeRule (anchorRule acc body) body) body
       else acc) body
  else acc

/-- Lines 634-641: order-preserving de-duplication with a `seen` set; the
set is modelled as the list of its elements, which at every step holds
exactly the members of `unique_links`. -/
def pyDedupe (links : List String) : List String :=
  (links.foldl (fun (st : List String × List String) link =>
    if link ∈ st.1 then st else (st.1 ++ [link], st.2 ++ [link])) ([], [])).2

/-- `EmailReader._get_unsubscribe_links`. -/
def get_unsubscribe_links (m : EmailMsg) : List String :=
  let fromHeader :=
    if m.listUnsub ≠ "" then
      ([] : List String) ++ headerHttpTokens m.listUnsub ++ headerMailtoTokens m.listUnsub
    else []
  let afterHtml := bodyPass fromHeader true (get_email_body m.root true)
  let afterPlain := bodyPass afterHtml false (get_email_body m.root false)
  pyDedupe afterPlain

/-! ## Search criteria (`EmailReader.read`, lines 394-406)

`datetime.now()` is external input; it is modelled by the current date's
day number (days since 1970-01-01, any time of day), so that
`datetime.now() - timedelta(days=n)` is day-number subtraction followed by
conversion back to a civil date. -/

/-- Civil date (year, month, day) of a day number, via the standard
era-based conversion (all intermediate arithmetic on non-negative values,
so `Nat` division is exact floor division). -/
def civilFromDays (z0 : Int) : Int × Nat × Nat :=
  let z := z0 + 719468
  let era := Int.fdiv z 146097
  let doe := (z - era * 146097).toNat
  let yoe := (doe - doe / 1460 + doe / 36524 - doe / 146096) / 365
  let doy := doe - (365 * yoe + yoe / 4 - yoe / 100)
  let mp := (5 * doy + 2) / 153
  let d := doy - (153 * mp + 2) / 5 + 1
  let m := if mp < 10 then mp + 3 else mp - 9
  ((yoe : Int) + era * 400 + (if m ≤ 2 then 1 else 0), m, d)

/-- `%b`: abbreviated month name. -/
def monthAbbr (m : Nat) : String :=
  ["Jan", "Feb", "Mar", "Apr", "May", "Jun", "Jul", "Aug", "Sep", "Oct", "Nov",
    "Dec"].getD (m - 1) ""

/-- `%d`: zero-padded day of month. -/
def pad2 (n : Nat) : String :=
  if n < 10 then "0" ++ toString n else toString n

/-- `strftime("%d-%b-%Y")`. -/
def fmtDMY (ymd : Int × Nat × Nat) : String :=
  pad2 ymd.2.2 ++ "-" ++ monthAbbr ymd.2.1 ++ "-" ++
    (if ymd.1 < 0 then "-" ++ toString ymd.1.natAbs else toString ymd.1.toNat)

/-- Lines 394-406: build the IMAP search string.  Each argument mirrors the
corresponding keyword argument of `read`; Python truthiness makes `None`,
`""`, `False` and `0` all skip their clause. -/
def buildSearchQuery (fromAddr subjectF : Option String) (unreadOnly : Bool)
    (days : Option Int) (nowDay : Int) : String :=
  let c1 : List String :=
    match fromAddr with
    | some s => if s ≠ "" then ["FROM \"" ++ s ++ "\""] else []
    | none => []
  let c2 := c1 ++
    (match subjectF with
     | some s => if s ≠ "" then ["SUBJECT \"" ++ s ++ "\""] else []
     | none => [])
  let c3 := c2 ++ (if unreadOnly then ["UNSEEN"] else [])
  let c4 := c3 ++
    (match days with
     | some n => if n ≠ 0 then ["SINCE " ++ fmtDMY (civilFromDays (nowDay - n))] else []
     | none => [])
  if c4 ≠ [] then pyJoinSp c4 else "ALL"

/-- The since-date clause claim C9 predicts for a `sinceDays` filter. -/
def sinceClause (nowDay : Int) (n : Int) : String :=
  "SINCE " ++ fmtDMY (civilFromDays (nowDay - n))

/-! ## Specification-side definitions

These do not embed source lines; they express the claims' wording, to be
compared with the embedded functions. -/

/-- First-seen order-preserving de-duplication: keep each element's first
occurrence, drop all later equal ones. -/
def firstSeenDedup : List String → List String
  | [] => []
  | a :: l => a :: firstSeenDedup (l.filter (fun x => x ≠ a))
termination_by l => l.length
decreasing_by
  simp only [List.length_cons]
  exact Nat.lt_succ_of_le (List.length_filter_le _ _)

/-- The guarded append both the rules and the final de-duplication reduce
to: append the element unless already present. -/
def gApp (a : List String) (x : String) : List String :=
  if x ∈ a then a else a ++ [x]

/-- Candidates of the anchor-text rule, in match order, with the rule's own
(membership-free) acceptance filter. -/
def anchorStream (body : String) : List String :=
  (finditer2 true anchorPat body).filterMap (fun ut =>
    if kwSearch ut.2 ∧ pyStartsWith ut.1 "http" then some ut.1 else none)

/-- Candidates of the "unsubscribe"-before-anchor rule. -/
def beforeStream (body : String) : List String :=
  (findallG1 true beforeLinkPat body).filterMap (fun u =>
    if pyStartsWith u "http" then some u else none)

/-- Candidates of the "unsubscribe"-inside-anchor rule. -/
def inLinkStream (body : String) : List String :=
  (findallG1 true inLinkPat body).filterMap (fun u =>
    if pyStartsWith u "http" then some u else none)

/-- Candidates of the URL-pattern rule: cleaned matches of each pattern in
source order, keeping those that start with `http`. -/
def urlPatStream (body : String) : List String :=
  urlPatterns.flatMap (fun pat =>
    (findallG0 true pat body).filterMap (fun mt =>
      if pyStartsWith (cleanUrl mt) "http" then some (cleanUrl mt) else none))

/-- All candidates one body pass generates, in rule order. -/
def passStream (preferHtml : Bool) (body : String) : List String :=
  if body ≠ "" then
    (if preferHtml then anchorStream body ++ beforeStream body ++ inLinkStream body
     else []) ++ urlPatStream body
  else []

/-- The full candidate stream of `_get_unsubscribe_links`, across all
extraction rules in application order. -/
def candidateStream (m : EmailMsg) : List String :=
  (if m.listUnsub ≠ "" then
    headerHttpTokens m.listUnsub ++ headerMailtoTokens m.listUnsub
   else []) ++
    passStream true (get_email_body m.root true) ++
    passStream false (get_email_body m.root false)

/-- Body-candidate test of the walk loop: non-attachment disposition and the
given content type. -/
def isBodyCandidate (ct : String) (p : MimePart) : Bool :=
  !(pyIn "attachment" (pyStrOpt (dispOf p))) && (ctypeOf p == ct)

/-- The claim-side capture of a walk sequence: the decoded payload of the
last candidate part of the given content type (the accumulators of
lines 479-491 are overwritten on every hit). -/
def lastCapture (ct : String) (ps : List MimePart) : String :=
  match (ps.filter (isBodyCandidate ct)).getLast? with
  | some p => utf8Decode .ignoreErr (payloadOf p)
  | none => ""

/-- Amended claim C2's hypothesis: the text the walk would leave in the
accumulators (for a single part, its decoded payload) is non-empty. -/
def hasUsableText (root : MimePart) : Bool :=
  match root with
  | .multi .. =>
    (lastCapture "text/plain" (walkPart root) != "") ||
      (lastCapture "text/html" (walkPart root) != "")
  | .leaf _ _ _ pl => utf8Decode .ignoreErr pl != ""

/-- Amended claim C4's per-provider search URL: only the gmail fallback
percent-encodes; the other templates receive the id with angle brackets
removed but otherwise verbatim. -/
def webLinkSearchUrl (provider cid : String) : String :=
  if provider = "gmail" then
    "https://mail.google.com/mail/u/0/#search/rfc822msgid%3A" ++ urlQuote [] cid
  else if provider = "zoho" then
    "https://mail.zoho.com/zm/#search/msgid/" ++ cid
  else if provider = "fastmail" then
    "https://app.fastmail.com/mail/search:msgid:" ++ cid
  else
    "https://mail." ++ provider ++ ".com/search?q=" ++ cid

/-- Claim C4 as frozen: every provider's template receives the
percent-encoded message id. -/
def webLinkClaimedAllEncoded (provider mid : String) : String :=
  if provider = "gmail" then
    "https://mail.google.com/mail/u/0/#search/rfc822msgid%3A" ++
      urlQuote [] (stripAngles mid)
  else if provider = "zoho" then
    "https://mail.zoho.com/zm/#search/msgid/" ++ urlQuote [] (stripAngles mid)
  else if provider = "fastmail" then
    "https://app.fastmail.com/mail/search:msgid:" ++ urlQuote [] (stripAngles mid)
  else
    "https://mail." ++ provider ++ ".com/search?q=" ++ urlQuote [] (stripAngles mid)

/-! ## Concrete test vectors -/

/-- ASCII bytes of a string (test-vector construction). -/
def asciiOf (s : String) : List Nat := s.toList.map (·.toNat)

/-- A multipart message with two non-attachment `text/plain` parts. -/
def msgTwoPlain : MimePart :=
  .multi "mixed" none none
    (.fcons (.leaf "text/plain" none none (asciiOf "a"))
      (.fcons (.leaf "text/plain" none none (asciiOf "b")) .fnil))

/-- A multipart message whose first `text/plain` part has text and whose
second (and last) `text/plain` part is empty. -/
def msgPlainThenEmpty : MimePart :=
  .multi "mixed" none none
    (.fcons (.leaf "text/plain" none none (asciiOf "hi"))
      (.fcons (.leaf "text/plain" none none []) .fnil))

/-- A message whose plain-text body is a bare URL matching the `/unsub`
pattern and ending in the letters `pam`. -/
def msgBareUnsubUrl : EmailMsg :=
  ⟨"", .leaf "text/plain" none none (asciiOf "https://a.b/unsub/spam")⟩

/-- An empty single-part message carrying only a `List-Unsubscribe` header. -/
def msgHeaderOnly (hdr : String) : EmailMsg :=
  ⟨hdr, .leaf "text/plain" none none []⟩

/-! ## Theory of the guarded append and the final de-duplication -/

lemma gApp_mem (a : List String) (x : String) (h : x ∈ a) : gApp a x = a := by
  simp [gApp, h]

lemma gApp_not_mem (a : List String) (x : String) (h : x ∉ a) :
    gApp a x = a ++ [x] := by
  simp [gApp, h]

lemma mem_foldl_gApp (l : List String) : ∀ (init : List String) (y : String),
    y ∈ l.foldl gApp init ↔ y ∈ init ∨ y ∈ l := by
  induction l with
  | nil => intro init y; simp
  | cons x xs ih =>
    intro init y
    simp only [List.foldl_cons, ih, gApp]
    by_cases hx : x ∈ init
    · simp only [if_pos hx, List.mem_cons]
      constructor
      · rintro (h | h)
        · exact Or.inl h
        · exact Or.inr (Or.inr h)
      · rintro (h | h | h)
        · exact Or.inl h
        · exact Or.inl (h ▸ hx)
        · exact Or.inr h
    · simp only [if_neg hx, List.mem_append, List.mem_singleton, List.mem_cons]
      tauto

lemma nodup_foldl_gApp (l : List String) : ∀ init : List String, init.Nodup →
    (l.foldl gApp init).Nodup := by
  induction l with
  | nil => intro init h; simpa using h
  | cons x xs ih =>
    intro init h
    simp only [List.foldl_cons]
    apply ih
    by_cases hx : x ∈ init
    · simpa [gApp_mem init x hx] using h
    · rw [gApp_not_mem init x hx]
      simp [List.nodup_append, h, hx]

lemma pyDedupe_eq_foldl (l : List String) : pyDedupe l = l.foldl gApp [] := by
  have h : ∀ (l : List String) (a : List String),
      l.foldl (fun (st : List String × List String) link =>
        if link ∈ st.1 then st else (st.1 ++ [link], st.2 ++ [link])) (a, a) =
      (l.foldl gApp a, l.foldl gApp a) := by
    intro l
    induction l with
    | nil => intro a; rfl
    | cons x xs ih =>
      intro a
      simp only [List.foldl_cons]
      by_cases hx : x ∈ a
      · simpa [hx, gApp_mem a x hx] using ih a
      · simpa [hx, gApp_not_mem a x hx] using ih (a ++ [x])
  unfold pyDedupe
  rw [h]

lemma foldl_gApp_mid_mem (acc t : List String) (x : String) (hx : x ∈ acc) :
    (acc ++ x :: t).foldl gApp [] = (acc ++ t).foldl gApp [] := by
  rw [List.foldl_append, List.foldl_append, List.foldl_cons]
  have hx0 : x ∈ acc.foldl gApp [] := (mem_foldl_gApp acc [] x).2 (Or.inr hx)
  rw [gApp_mem _ x hx0]

lemma dedupe_foldl_gApp (s : List String) : ∀ acc : List String,
    (s.foldl gApp acc).foldl gApp ([] : List String) =
      (acc ++ s).foldl gApp ([] : List String) := by
  induction s with
  | nil => intro acc; simp
  | cons x s' ih =>
    intro acc
    simp only [List.foldl_cons]
    by_cases hx : x ∈ acc
    · rw [gApp_mem acc x hx, ih, foldl_gApp_mid_mem acc s' x hx]
    · rw [gApp_not_mem acc x hx, ih, List.append_assoc, List.singleton_append]

lemma foldl_gApp_eq_firstSeen (l : List String) : ∀ acc : List String,
    l.foldl gApp acc = acc ++ firstSeenDedup (l.filter (fun x => x ∉ acc)) := by
  induction l with
  | nil => intro acc; simp [firstSeenDedup]
  | cons x l' ih =>
    intro acc
    simp only [List.foldl_cons]
    by_cases hx : x ∈ acc
    · rw [gApp_mem acc x hx, ih]
      have h1 : (x :: l').filter (fun y => y ∉ acc) = l'.filter (fun y => y ∉ acc) := by
        simp [List.filter_cons, hx]
      rw [h1]
    · rw [gApp_not_mem acc x hx, ih]
      have h1 : (x :: l').filter (fun y => y ∉ acc) = x :: l'.filter (fun y => y ∉ acc) := by
        simp [List.filter_cons, hx]
      have h2 : l'.filter (fun y => y ∉ acc ++ [x]) =
          (l'.filter (fun y => y ∉ acc)).filter (fun y => y ≠ x) := by
        rw [List.filter_filter]
        apply List.filter_congr
        intro y _
        by_cases hya : y ∈ acc <;> by_cases hyx : y = x <;>
          simp [hya, hyx, List.mem_append]
      have h3 : firstSeenDedup (x :: l'.filter (fun y => y ∉ acc)) =
          x :: firstSeenDedup ((l'.filter (fun y => y ∉ acc)).filter (fun y => y ≠ x)) := by
        simp [firstSeenDedup]
      rw [h1, h2, h3, List.append_assoc, List.singleton_append]

lemma pyDedupe_eq_firstSeen (l : List String) : pyDedupe l = firstSeenDedup l := by
  rw [pyDedupe_eq_foldl, foldl_gApp_eq_firstSeen]
  have h : l.filter (fun x => x ∉ ([] : List String)) = l := by
    apply List.filter_eq_self.2
    intro a _
    simp
  rw [h, List.nil_append]

/-! ## The extraction rules as guarded folds over their candidate streams -/

lemma anchorRule_eq (body : String) : ∀ acc,
    anchorRule acc body = (anchorStream body).foldl gApp acc := by
  unfold anchorRule anchorStream
  induction finditer2 true anchorPat body with
  | nil => intro acc; rfl
  | cons ut l ih =>
    intro acc
    simp only [List.foldl_cons, List.filterMap_cons]
    by_cases h1 : kwSearch ut.2 ∧ pyStartsWith ut.1 "http"
    · rw [if_pos h1]
      simp only [List.foldl_cons]
      by_cases h2 : ut.1 ∈ acc
      · rw [if_neg (fun h => h.2 h2), gApp_mem acc ut.1 h2]
        exact ih acc
      · rw [if_pos ⟨h1, h2⟩, gApp_not_mem acc ut.1 h2]
        exact ih (acc ++ [ut.1])
    · rw [if_neg (fun h => h1 h.1), if_neg h1]
      exact ih acc

lemma httpGuardFold_eq (us : List String) : ∀ acc,
    us.foldl (fun a u => if pyStartsWith u "http" ∧ u ∉ a then a ++ [u] else a) acc =
      (us.filterMap (fun u => if pyStartsWith u "http" then some u else none)).foldl
        gApp acc := by
  induction us with
  | nil => intro acc; rfl
  | cons u l ih =>
    intro acc
    simp only [List.foldl_cons, List.filterMap_cons]
    by_cases h1 : pyStartsWith u "http"
    · rw [if_pos h1]
      simp only [List.foldl_cons]
      by_cases h2 : u ∈ acc
      · rw [if_neg (fun h => h.2 h2), gApp_mem acc u h2]
        exact ih acc
      · rw [if_pos ⟨h1, h2⟩, gApp_not_mem acc u h2]
        exact ih (acc ++ [u])
    · rw [if_neg (fun h => h1 h.1), if_neg h1]
      exact ih acc

lemma beforeRule_eq (body : String) (acc : List String) :
    beforeRule acc body = (beforeStream body).foldl gApp acc :=
  httpGuardFold_eq _ acc

lemma inLinkRule_eq (body : String) (acc : List String) :
    inLinkRule acc body = (inLinkStream body).foldl gApp acc :=
  httpGuardFold_eq _ acc

lemma cleanFold_eq (ms : List String) : ∀ acc,
    ms.foldl (fun a2 mt =>
      let c := cleanUrl mt
      if c ∉ a2 ∧ pyStartsWith c "http" then a2 ++ [c] else a2) acc =
      (ms.filterMap (fun mt =>
        if pyStartsWith (cleanUrl mt) "http" then some (cleanUrl mt) else none)).foldl
        gApp acc := by
  induction ms with
  | nil => intro acc; rfl
  | cons mt l ih =>
    intro acc
    simp only [List.foldl_cons, List.filterMap_cons]
    by_cases h1 : pyStartsWith (cleanUrl mt) "http"
    · rw [if_pos h1]
      simp only [List.foldl_cons]
      by_cases h2 : cleanUrl mt ∈ acc
      · rw [if_neg (fun h => h.1 h2), gApp_mem acc _ h2]
        exact ih acc
      · rw [if_pos ⟨h2, h1⟩, gApp_not_mem acc _ h2]
        exact ih (acc ++ [cleanUrl mt])
    · rw [if_neg (fun h => h1 h.2), if_neg h1]
      exact ih acc

lemma urlPatRule_eq (body : String) : ∀ acc,
    urlPatRule acc body = (urlPatStream body).foldl gApp acc := by
  unfold urlPatRule urlPatStream
  induction urlPatterns with
  | nil => intro acc; rfl
  | cons pat pats ih =>
    intro acc
    simp only [List.foldl_cons, List.flatMap_cons, List.foldl_append]
    rw [cleanFold_eq]
    exact ih _

lemma bodyPass_eq (pref : Bool) (body : String) (acc : List String) :
    bodyPass acc pref body = (passStream pref body).foldl gApp acc := by
  unfold bodyPass passStream
  by_cases hb : body ≠ ""
  · rw [if_pos hb, if_pos hb]
    cases pref
    · rw [if_neg (by simp), if_neg (by simp), List.nil_append]
      exact urlPatRule_eq body acc
    · rw [if_pos rfl, if_pos rfl, urlPatRule_eq, inLinkRule_eq, beforeRule_eq,
        anchorRule_eq]
      simp only [List.foldl_append]
  · rw [if_neg hb, if_neg hb]
    rfl

lemma get_unsubscribe_links_eq_foldl (m : EmailMsg) :
    get_unsubscribe_links m = (candidateStream m).foldl gApp [] := by
  simp only [get_unsubscribe_links, candidateStream]
  rw [pyDedupe_eq_foldl, bodyPass_eq, bodyPass_eq, ← List.foldl_append,
    dedupe_foldl_gApp]
  congr 1
  by_cases hh : m.listUnsub ≠ "" <;> simp [hh, List.append_assoc]

/-! ## Characterisation of the body-capture loop -/

lemma bodyStep_eq (acc : String × String) (p : MimePart) :
    bodyStep acc p =
      (if isBodyCandidate "text/plain" p then utf8Decode .ignoreErr (payloadOf p)
       else acc.1,
       if isBodyCandidate "text/html" p then utf8Decode .ignoreErr (payloadOf p)
       else acc.2) := by
  unfold bodyStep isBodyCandidate
  by_cases ha : pyIn "attachment" (pyStrOpt (dispOf p))
  · simp [ha]
  · by_cases hp : ctypeOf p = "text/plain"
    · have hh : ctypeOf p ≠ "text/html" := by rw [hp]; decide
      simp [ha, hp, hh]
    · by_cases hh : ctypeOf p = "text/html"
      · simp [ha, hp, hh]
      · simp [ha, hp, hh]

lemma lastCapture_append (ct : String) (ps : List MimePart) (p : MimePart) :
    lastCapture ct (ps ++ [p]) =
      (if isBodyCandidate ct p then utf8Decode .ignoreErr (payloadOf p)
       else lastCapture ct ps) := by
  unfold lastCapture
  rw [List.filter_append]
  by_cases hc : isBodyCandidate ct p
  · simp [hc, List.getLast?_concat]
  · simp [hc]

lemma bodyScan_eq (ps : List MimePart) :
    bodyScan ps = (lastCapture "text/plain" ps, lastCapture "text/html" ps) := by
  induction ps using List.reverseRecOn with
  | nil => rfl
  | append_singleton ps p ih =>
    unfold bodyScan at ih ⊢
    rw [List.foldl_append, List.foldl_cons, List.foldl_nil, ih, bodyStep_eq,
      lastCapture_append, lastCapture_append]

lemma resolveBody_ne_empty (pref : Bool) (p h : String)
    (hne : p ≠ "" ∨ h ≠ "") : resolveBody pref p h ≠ "" := by
  unfold resolveBody
  by_cases h1 : pref = true ∧ h ≠ ""
  · rw [if_pos h1]; exact h1.2
  · rw [if_neg h1]
    by_cases h2 : p ≠ ""
    · rw [if_pos h2]; exact h2
    · rw [if_neg h2]
      rcases hne with hp | hh
      · exact absurd hp h2
      · exact hh

/-! ## Join and append helpers -/

lemma attachLoop_eq (l : List MimePart) : ∀ acc : List String,
    attachLoop acc l =
      (optMapList (fun p => decode_header ((fnameOf p).getD []))
        (l.filter (fun p =>
          decide (get_content_disposition p = some "attachment") &&
            fnameTruthy (fnameOf p)))).map (fun ys => acc ++ ys) := by
  induction l with
  | nil => intro acc; simp [attachLoop, optMapList]
  | cons p ps ih =>
    intro acc
    rw [List.filter_cons]
    by_cases hd : get_content_disposition p = some "attachment"
    · cases hf : fnameOf p with
      | none =>
        rw [if_neg (by simp [hd, hf, fnameTruthy])]
        simpa [attachLoop, hd, hf] using ih acc
      | some fn =>
        by_cases hn : fn ≠ []
        · rw [if_pos (by simp [hd, hf, fnameTruthy, hn])]
          have hstep : attachLoop acc (p :: ps) =
              (match decode_header fn with
               | some s => attachLoop (acc ++ [s]) ps
               | none => none) := by
            simp [attachLoop, hd, hf, hn]
          rw [hstep]
          cases hdec : decode_header fn with
          | none =>
            simp only [optMapList, hf, Option.getD_some, hdec]
            rfl
          | some s =>
            simp only [optMapList, hf, Option.getD_some, hdec]
            rw [ih (acc ++ [s])]
            cases hrest : optMapList (fun p => decode_header ((fnameOf p).getD []))
                (ps.filter (fun p =>
                  decide (get_content_disposition p = some "attachment") &&
                    fnameTruthy (fnameOf p))) with
            | none => rfl
            | some ys => simp [List.append_assoc]
        · rw [if_neg (by simp [hd, hf, fnameTruthy, hn])]
          have hfn : fn = [] := by simpa using hn
          simpa [attachLoop, hd, hf, hfn] using ih acc
    · rw [if_neg (by simp [hd])]
      simpa [attachLoop, hd] using ih acc

/-! ## Claims -/

/-- C1 (counterexample): in a multipart message with two non-attachment
`text/plain` parts decoding to `"a"` and `"b"`, `_get_email_body` returns the
second part's text, not the first capture the claim predicts. -/
theorem body_capture_first_wins_counterexample :
    get_email_body msgTwoPlain false = "b" ∧
    utf8Decode .ignoreErr (asciiOf "a") = "a" ∧
    ("b" : String) ≠ "a" :=
  ⟨by decide, by decide, by decide⟩

/-- C1 (amended): the body-capture loop is last-wins: over any multipart
tree, each accumulator ends as the decoded payload of the last
non-attachment part of its content type in walk order, and the extracted
body is the resolution of those two last captures. -/
theorem body_capture_last_wins (st : String) (d : Option String)
    (f : Option (List HeaderAtom)) (cs : MimeForest) (pref : Bool) :
    get_email_body (.multi st d f cs) pref =
      resolveBody pref (lastCapture "text/plain" (walkPart (.multi st d f cs)))
        (lastCapture "text/html" (walkPart (.multi st d f cs))) := by
  simp [get_email_body, capturedBodies, bodyScan_eq]

/-- C2 (counterexample): a multipart tree containing a `text/plain` part with
text `"hi"` still yields an empty body under both preferences, because a
later empty `text/plain` part overwrites the capture. -/
theorem body_nonempty_counterexample :
    get_email_body msgPlainThenEmpty true = "" ∧
    get_email_body msgPlainThenEmpty false = "" :=
  ⟨by decide, by decide⟩

/-- C2 (amended): whenever the last-captured text of either type (for a
single-part message, its decoded payload) is non-empty, `_get_email_body`
returns a non-empty string, for both preference values. -/
theorem body_nonempty_of_usable (root : MimePart) (pref : Bool)
    (h : hasUsableText root = true) : get_email_body root pref ≠ "" := by
  cases root with
  | leaf ct d f pl =>
    have hz : utf8Decode .ignoreErr pl ≠ "" := by
      simpa [hasUsableText] using h
    simp only [get_email_body, capturedBodies]
    by_cases hh : ct = "text/html"
    · rw [if_pos hh]
      exact resolveBody_ne_empty pref _ _ (Or.inr hz)
    · rw [if_neg hh]
      exact resolveBody_ne_empty pref _ _ (Or.inl hz)
  | multi st d f cs =>
    have hz := h
    unfold hasUsableText at hz
    simp only [get_email_body, capturedBodies]
    rw [bodyScan_eq]
    apply resolveBody_ne_empty
    simpa [bne_iff_ne] using hz

/-- C2 (witness): instantiation of the amended theorem at a concrete
single-part message with text `"hi"`. -/
theorem body_nonempty_of_usable_witness :
    hasUsableText (MimePart.leaf "text/plain" none none (asciiOf "hi")) = true ∧
    get_email_body (MimePart.leaf "text/plain" none none (asciiOf "hi")) false ≠ "" :=
  ⟨by decide, body_nonempty_of_usable _ false (by decide)⟩

/-- C3: the extracted unsubscribe links contain no duplicate strings, and
they are exactly the first-seen-order de-duplication of the full candidate
stream across all extraction rules in application order. -/
theorem unsubscribe_nodup_first_seen (m : EmailMsg) :
    (get_unsubscribe_links m).Nodup ∧
    get_unsubscribe_links m = firstSeenDedup (candidateStream m) := by
  constructor
  · rw [get_unsubscribe_links_eq_foldl]
    exact nodup_foldl_gApp _ [] List.nodup_nil
  · rw [get_unsubscribe_links_eq_foldl, foldl_gApp_eq_firstSeen]
    have h : (candidateStream m).filter (fun x => x ∉ ([] : List String)) =
        candidateStream m := by
      apply List.filter_eq_self.2
      intro a _
      simp
    rw [h, List.nil_append]

/-- C4 (counterexample): for the zoho provider the message id is embedded
verbatim (a space survives), not percent-encoded as the claim states for
every provider. -/
theorem web_link_encoding_counterexample :
    get_web_link "zoho" "a b" none = "https://mail.zoho.com/zm/#search/msgid/a b" ∧
    webLinkClaimedAllEncoded "zoho" "a b" =
      "https://mail.zoho.com/zm/#search/msgid/a%20b" ∧
    get_web_link "zoho" "a b" none ≠ webLinkClaimedAllEncoded "zoho" "a b" :=
  ⟨by decide, by decide, by decide⟩

/-- C4 (amended): for a non-empty message id, when the gmail-numeric rule
does not apply, the result is the per-provider template applied to the
angle-bracket-stripped id, where only the gmail fallback percent-encodes
and unknown providers get the generic template. -/
theorem web_link_templates (provider mid : String) (gm : Option String)
    (h1 : mid ≠ "") (h2 : gmailDirect provider gm = none) :
    get_web_link provider mid gm = webLinkSearchUrl provider (stripAngles mid) := by
  unfold get_web_link webLinkSearchUrl
  rw [h2, if_neg h1]

/-- C4 (witness): instantiation of the amended theorem for zoho with id
`"a@b"`. -/
theorem web_link_templates_witness :
    (("a@b" : String) ≠ "") ∧ gmailDirect "zoho" none = none ∧
    get_web_link "zoho" "a@b" none = webLinkSearchUrl "zoho" (stripAngles "a@b") :=
  ⟨by decide, by decide, web_link_templates "zoho" "a@b" none (by decide) (by decide)⟩

/-- C6 (code bug): a plain-text body holding the bare URL
`https://a.b/unsub/spam` yields the mangled link `https://a.b/unsub/s`: the
`strip('.,;:)]}\x27"&amp;')` call treats `&amp;` as the character set
`{&, a, m, p}` and also removes trailing letters, instead of only trailing
punctuation as documented. -/
theorem url_clean_strips_letters :
    get_unsubscribe_links msgBareUnsubUrl = ["https://a.b/unsub/s"] ∧
    ("https://a.b/unsub/s" : String) ≠ "https://a.b/unsub/spam" :=
  ⟨by decide, by decide⟩

/-- C7: the extracted body follows the resolution policy over the captured
pair: the html body when preferred and non-empty, else the plain body when
non-empty, else the html body, else the empty string. -/
theorem body_resolution_policy (root : MimePart) (pref : Bool) :
    get_email_body root pref =
      (if pref = true ∧ (capturedBodies root).2 ≠ "" then (capturedBodies root).2
       else if (capturedBodies root).1 ≠ "" then (capturedBodies root).1
       else if (capturedBodies root).2 ≠ "" then (capturedBodies root).2
       else "") := by
  unfold get_email_body resolveBody
  by_cases h1 : pref = true ∧ (capturedBodies root).2 ≠ ""
  · simp [h1]
  · by_cases h2 : (capturedBodies root).1 ≠ ""
    · simp [h1, h2]
    · by_cases h3 : (capturedBodies root).2 ≠ ""
      · simp [h1, h2, h3]
      · simp only [if_neg h1, if_neg h2, if_neg h3]
        simpa using h3

/-- C8: with no body text, the result is the first-seen de-duplication of
the header rule's tokens, http(s) tokens before mailto tokens, each group in
header order; on the scenario header the result is exactly
`["https://x.test/u", "mailto:off@x.test"]`. -/
theorem header_rule_order_scenario :
    (∀ hdr : String,
      get_unsubscribe_links (msgHeaderOnly hdr) =
        firstSeenDedup (headerHttpTokens hdr ++ headerMailtoTokens hdr)) ∧
    get_unsubscribe_links (msgHeaderOnly "<https://x.test/u>, <mailto:off@x.test>") =
      ["https://x.test/u", "mailto:off@x.test"] := by
  constructor
  · intro hdr
    have hbody : ∀ pref : Bool,
        get_email_body (MimePart.leaf "text/plain" none none []) pref = "" := by
      intro pref
      cases pref <;> rfl
    have hpass : ∀ (acc : List String) (pref : Bool),
        bodyPass acc pref (get_email_body (MimePart.leaf "text/plain" none none []) pref) =
          acc := by
      intro acc pref
      rw [hbody pref]
      rfl
    simp only [get_unsubscribe_links, msgHeaderOnly]
    rw [hpass, hpass]
    by_cases hh : hdr ≠ ""
    · rw [if_pos hh, List.nil_append, pyDedupe_eq_firstSeen]
    · rw [if_neg hh]
      have hhe : hdr = "" := by simpa using hh
      subst hhe
      have h1 : headerHttpTokens "" = [] := by decide
      have h2 : headerMailtoTokens "" = [] := by decide
      rw [h1, h2]
      simp [firstSeenDedup, pyDedupe]
  · decide

/-- C9 (counterexample): a present `sinceDays` filter with value `0` is
dropped (Python truthiness), yielding the match-all token instead of the
since-date clause the claim predicts for every present filter. -/
theorem search_query_zero_days_counterexample :
    buildSearchQuery none none false (some 0) 0 = "ALL" ∧
    sinceClause 0 0 = "SINCE 01-Jan-1970" ∧
    buildSearchQuery none none false (some 0) 0 ≠ sinceClause 0 0 :=
  ⟨by decide, by decide, by decide⟩

/-- C9 (amended): clauses of the truthy filters are joined by single spaces
in from/subject/unseen/since order; an empty (or all-falsy) filter set yields
`ALL`; and for `{unreadOnly: true, sinceDays: 7}` the result is the unseen
clause followed by the since clause computed from the current date minus 7
days. -/
theorem search_query_clauses :
    (∀ n : Int, buildSearchQuery none none true (some 7) n =
      "UNSEEN" ++ " " ++ sinceClause n 7) ∧
    (∀ n : Int, buildSearchQuery none none false none n = "ALL") ∧
    (∀ (n : Int) (f s : String), f ≠ "" → s ≠ "" →
      buildSearchQuery (some f) (some s) true (some 7) n =
        ("FROM \"" ++ f ++ "\"") ++ " " ++ (("SUBJECT \"" ++ s ++ "\"") ++ " " ++
          ("UNSEEN" ++ " " ++ sinceClause n 7))) := by
  refine ⟨fun n => rfl, fun n => rfl, fun n f s hf hs => ?_⟩
  simp only [buildSearchQuery]
  rw [if_pos hf, if_pos hs]
  rfl

/-- C9 (witness): instantiation of the amended theorem's third part at
concrete filters. -/
theorem search_query_clauses_witness :
    (("me@x.y" : String) ≠ "") ∧ (("hello" : String) ≠ "") ∧
    buildSearchQuery (some "me@x.y") (some "hello") true (some 7) 0 =
      ("FROM \"me@x.y\"") ++ " " ++ (("SUBJECT \"hello\"") ++ " " ++
        ("UNSEEN" ++ " " ++ sinceClause 0 7)) :=
  ⟨by decide, by decide, search_query_clauses.2.2 0 "me@x.y" "hello" (by decide) (by decide)⟩

/-- C10: every attachment entry comes from a walk part whose parsed
disposition is `attachment` and whose filename is present and truthy, in walk
order — the result is exactly the (failure-propagating) decode of the
filenames of those parts; parts with disposition `attachment` but no
filename contribute nothing. -/
theorem attachments_filter_map (root : MimePart) :
    get_attachments root =
      optMapList (fun p => decode_header ((fnameOf p).getD []))
        ((walkPart root).filter (fun p =>
          decide (get_content_disposition p = some "attachment") &&
            fnameTruthy (fnameOf p))) := by
  unfold get_attachments
  rw [attachLoop_eq (walkPart root) []]
  cases optMapList (fun p => decode_header ((fnameOf p).getD []))
      ((walkPart root).filter (fun p =>
        decide (get_content_disposition p = some "attachment") &&
          fnameTruthy (fnameOf p))) with
  | none => rfl
  | some ys => simp

end EmailClient
